import Mathlib

/-!
# jaster: mesh loading, keyboard accumulation, camera step and frame loop

A shallow embedding of `src/main.cpp`.

Modelling conventions

* `double` values are an abstract type `α`; no law of arithmetic is assumed for
  them.  The arithmetic of `Vector3d`, `Matrix4d`, `Quatd` and `Transform`
  lives in headers that are not part of `src/`, so every such operation is a
  field of one of the operation records below and the functions of `main.cpp`
  are written against those records.
* The `float` buffers of a shape are lists over `α`: the cast `(double)data[k]`
  is value preserving.
* `std::vector::operator[]` is modelled as a partial read; a read outside the
  buffer is a `Fault`.
* `int` offsets such as `3*idx+2` and the loop counter `i` are computed in
  unbounded integers (signed overflow is undefined in C++ and can only occur
  for buffers of 2^31 elements or more); the conversion of an `unsigned int`
  index entry to `int` wraps at 32 bits.
* Text written to `std::cout` and `std::cerr` is not modelled.
-/

namespace Jaster

/-! ## Data model -/

/-- The class `Vector3d`: three `double` components. -/
structure Vector3d (α : Type) where
  x : α
  y : α
  z : α
deriving DecidableEq, Repr

/-- The class `Vector2i`: two `int` components. -/
structure Vector2i where
  x : Int
  y : Int
deriving DecidableEq, Repr

/-- The class `Triangle3d`: three positions and three normals. -/
structure Triangle3d (α : Type) where
  p0 : Vector3d α
  p1 : Vector3d α
  p2 : Vector3d α
  n0 : Vector3d α
  n1 : Vector3d α
  n2 : Vector3d α
deriving DecidableEq, Repr

/-- The fields of `tinyobj::mesh_t` that `main.cpp` reads. -/
structure mesh_t (α : Type) where
  positions : List α
  normals : List α
  indices : List Nat
deriving DecidableEq, Repr

/-- The fields of `tinyobj::shape_t` that `main.cpp` reads. -/
structure shape_t (α : Type) where
  mesh : mesh_t α
deriving DecidableEq, Repr

/-- Operations of `Vector3d` and `Triangle3d` used by the loader.  They are
declared outside `src/` and enter as parameters. -/
structure VecOps (α : Type) where
  /-- The value of `Vector3d()`, which the specification calls the zero vector. -/
  vzero : Vector3d α
  /-- The operator `a - b`. -/
  sub : Vector3d α → Vector3d α → Vector3d α
  /-- The call `a.crossProduct(b)`. -/
  crossProduct : Vector3d α → Vector3d α → Vector3d α
  /-- The value of `vec` after `vec.normalize()`. -/
  normalize : Vector3d α → Vector3d α
  /-- The operator `a == b`. -/
  veq : Vector3d α → Vector3d α → Bool
  /-- The value of a default constructed `Triangle3d`. -/
  triDefault : Triangle3d α

/-! ## Mesh loading -/

/-- The array that a faulting read was aimed at. -/
inductive Fault where
  | indices
  | positions
  | normals
deriving DecidableEq, Repr

/-- Conversion of an `unsigned int` index entry to `int`. -/
def toInt32 (e : Nat) : Int :=
  if e % 2 ^ 32 < 2 ^ 31 then ((e % 2 ^ 32 : Nat) : Int)
  else ((e % 2 ^ 32 : Nat) : Int) - 2 ^ 32

/-- The read `data[i]` with an `int` subscript: a negative subscript converts to
a huge `size_t` and is out of bounds like any subscript past the end. -/
def readAt {α : Type} (data : List α) (i : Int) : Option α :=
  if 0 ≤ i then data[i.toNat]? else none

/-- The function `unmarshalVector`. -/
def unmarshalVector {α : Type} (idx : Int) (data : List α) : Option (Vector3d α) :=
  match readAt data (3 * idx + 0), readAt data (3 * idx + 1), readAt data (3 * idx + 2) with
  | some a, some b, some c => some ⟨a, b, c⟩
  | _, _, _ => none

/-- The function `generateNormal`. -/
def generateNormal {α : Type} (ops : VecOps α) (p0 p1 p2 : Vector3d α) : Vector3d α :=
  ops.normalize (ops.crossProduct (ops.sub p1 p0) (ops.sub p2 p1))

/-- The read `shape.mesh.indices[k]` followed by the conversion to `int idx`. -/
def readIndex (indices : List Nat) (k : Nat) : Except Fault Int :=
  match indices[k]? with
  | some e => .ok (toInt32 e)
  | none => .error Fault.indices

/-- A call of `unmarshalVector` whose failure is charged to the array `f`. -/
def fetch {α : Type} (f : Fault) (idx : Int) (data : List α) : Except Fault (Vector3d α) :=
  match unmarshalVector idx data with
  | some v => .ok v
  | none => .error f

/-- Lines 68 to 71: the sentinel test on `tri.n0` and the chained assignment. -/
def fixNormals {α : Type} (ops : VecOps α) (tri : Triangle3d α) : Triangle3d α :=
  if ops.veq tri.n0 ops.vzero then
    let g := generateNormal ops tri.p0 tri.p1 tri.p2
    { tri with n0 := g, n1 := g, n2 := g }
  else tri

/-- The body of the inner loop of `loadObjFile` for counter value `i`, up to the
`push_back`.  The variable `tri` is declared outside the loop, so the body
starts from the value the previous iteration left in it. -/
def convertTriangle {α : Type} (ops : VecOps α) (shape : shape_t α)
    (tri : Triangle3d α) (i : Nat) : Except Fault (Triangle3d α) := do
  let idx ← readIndex shape.mesh.indices (3 * i + 0)
  let p0 ← fetch Fault.positions idx shape.mesh.positions
  let tri := { tri with p0 := p0 }
  let n0 ← fetch Fault.normals idx shape.mesh.normals
  let tri := { tri with n0 := n0 }
  let idx ← readIndex shape.mesh.indices (3 * i + 1)
  let p1 ← fetch Fault.positions idx shape.mesh.positions
  let tri := { tri with p1 := p1 }
  let n1 ← fetch Fault.normals idx shape.mesh.normals
  let tri := { tri with n1 := n1 }
  let idx ← readIndex shape.mesh.indices (3 * i + 2)
  let p2 ← fetch Fault.positions idx shape.mesh.positions
  let tri := { tri with p2 := p2 }
  let n2 ← fetch Fault.normals idx shape.mesh.normals
  let tri := { tri with n2 := n2 }
  pure (fixNormals ops tri)

/-- The inner `for` loop of `loadObjFile` over the remaining counter values;
the state is the variable `tri` and the mesh. -/
def convertLoop {α : Type} (ops : VecOps α) (shape : shape_t α) :
    List Nat → Triangle3d α → List (Triangle3d α) → Except Fault (List (Triangle3d α))
  | [], _, mesh => .ok mesh
  | i :: rest, tri, mesh =>
    match convertTriangle ops shape tri i with
    | .error f => .error f
    | .ok t => convertLoop ops shape rest t (mesh ++ [t])

/-- One iteration of the outer loop: a fresh `tri`, then the inner loop for
`i = 0, ..., indices.size() / 3 - 1`. -/
def convertShape {α : Type} (ops : VecOps α) (shape : shape_t α)
    (mesh : List (Triangle3d α)) : Except Fault (List (Triangle3d α)) :=
  convertLoop ops shape (List.range (shape.mesh.indices.length / 3)) ops.triDefault mesh

/-- The outer loop `for (auto shape : shapes)`. -/
def convertShapes {α : Type} (ops : VecOps α) :
    List (shape_t α) → List (Triangle3d α) → Except Fault (List (Triangle3d α))
  | [], mesh => .ok mesh
  | s :: rest, mesh =>
    match convertShape ops s mesh with
    | .error f => .error f
    | .ok mesh1 => convertShapes ops rest mesh1

/-- What `tinyobj::LoadObj` hands back: the error string and the shapes. -/
structure ParseResult (α : Type) where
  err : String
  shapes : List (shape_t α)

/-- How a call of `loadObjFile` ends. -/
inductive LoadResult (α : Type) where
  /-- The function returned; the argument is the mesh after the call. -/
  | returned (mesh : List (Triangle3d α))
  /-- The call `exit(code)` was made; the argument `mesh` is the mesh then. -/
  | exited (code : Nat) (mesh : List (Triangle3d α))
  /-- A read outside a buffer. -/
  | fault (f : Fault)
deriving DecidableEq, Repr

/-- The function `loadObjFile`; `LoadObj` is the external parser. -/
def loadObjFile {α : Type} (ops : VecOps α) (LoadObj : String → ParseResult α)
    (mesh : List (Triangle3d α)) (file : String) : LoadResult α :=
  let r := LoadObj file
  if r.err ≠ "" then LoadResult.exited 1 mesh
  else
    match convertShapes ops r.shapes mesh with
    | .error f => LoadResult.fault f
    | .ok mesh1 => LoadResult.returned mesh1

/-! ## Rendering, keyboard and camera -/

/-- Arithmetic on `double` used by `main.cpp`; the operations enter as
parameters and no law is assumed for them. -/
structure ScalarOps (α : Type) where
  /-- The `double` denoted by a literal such as `0.0`, `1.0`, `2`, `10`, `100.0`. -/
  lit : Nat → α
  /-- Unary minus. -/
  neg : α → α
  /-- The operator `a * b`. -/
  mul : α → α → α
  /-- The operator `a / b`. -/
  div : α → α → α
  /-- The function `std::sin`. -/
  sin : α → α
  /-- Conversion of a `uint32_t` to `double`. -/
  ofUInt32 : Nat → α

/-- Operations of `Matrix4d` and of `geometry/transform.h` used by `main.cpp`. -/
structure MatOps (α M : Type) where
  /-- The value of a default constructed `Matrix4d`. -/
  mdefault : M
  /-- The call `Matrix4d::createScale(x, y, z)`. -/
  createScale : α → α → α → M
  /-- The call `Matrix4d::createTranslation(x, y, z)`. -/
  createTranslation : α → α → α → M
  /-- The call `Matrix4d::createRotationAroundAxis(x, y, z)`. -/
  createRotationAroundAxis : α → α → α → M
  /-- The operator `a * b` on matrices. -/
  mul : M → M → M
  /-- Modelled from the spec: `math::transform(out, m, tri)` is declared in
  `geometry/transform.h`, outside `src/`.  The specification describes it as
  producing a new triangle from the matrix and the input triangle (all three
  positions and all three normals are transformed), so the value left in `out`
  is a function of `m` and `tri`. -/
  transform : M → Triangle3d α → Triangle3d α

/-- Operations of `Quatd`, `Transform` and `Vector3d` used by `transformCamera`. -/
structure CamOps (α Q T : Type) where
  /-- The call `Quatd::fromAxisRot(axis, angle)`. -/
  fromAxisRot : Vector3d α → α → Q
  /-- The transform after `transform.rotate(q)`. -/
  rotate : T → Q → T
  /-- The transform after `transform.translate(v)`. -/
  translate : T → Vector3d α → T
  /-- The call `transform.getAt()`. -/
  getAt : T → Vector3d α
  /-- The operator `v * s` of a vector and a `double`. -/
  vscale : Vector3d α → α → Vector3d α
  /-- Unary minus on a vector. -/
  vneg : Vector3d α → Vector3d α
  /-- The transform of the camera of a freshly constructed `Renderer`. -/
  camera0 : T

/-- Calls made on the window, the renderer and SDL, in the order they happen. -/
inductive Effect (α : Type) where
  | sdlInit
  | newWindow (width height : Nat)
  | newRenderer
  | clear (color : Nat)
  | clearDepthBuffer
  | renderTriangle (t : Triangle3d α)
  | blit
  | delay (ms : Nat)
deriving DecidableEq, Repr

/-- The globals of `main.cpp`: `dragonMesh`, `xKeyDir`, the camera transform
held by `xRenderer`, and the calls made so far on `xWindow`, `xRenderer` and
SDL. -/
structure Globals (α T : Type) where
  dragonMesh : List (Triangle3d α)
  xKeyDir : Vector2i
  camera : T
  effects : List (Effect α)

/-- The function `renderMesh`.  The mesh is passed by reference, so the result
carries the mesh after the call next to the calls made on the renderer. -/
def renderMesh {α M : Type} (mo : MatOps α M) (mesh : List (Triangle3d α)) (transform : M)
    (effects : List (Effect α)) : List (Triangle3d α) × List (Effect α) :=
  (mesh, mesh.foldl (fun acc tri => acc ++ [Effect.renderTriangle (mo.transform transform tri)])
    effects)

/-- The part of `SDL_Event` that `main.cpp` reads: `type` and `key.keysym.sym`. -/
structure SDL_Event where
  type : Nat
  sym : Nat
deriving DecidableEq, Repr

/-- `SDL_KEYDOWN` in SDL 1.2. -/
def SDL_KEYDOWN : Nat := 2
/-- `SDL_KEYUP` in SDL 1.2. -/
def SDL_KEYUP : Nat := 3
/-- `SDL_QUIT` in SDL 1.2. -/
def SDL_QUIT : Nat := 12
/-- `SDLK_UP` in SDL 1.2. -/
def SDLK_UP : Nat := 273
/-- `SDLK_DOWN` in SDL 1.2. -/
def SDLK_DOWN : Nat := 274
/-- `SDLK_RIGHT` in SDL 1.2. -/
def SDLK_RIGHT : Nat := 275
/-- `SDLK_LEFT` in SDL 1.2. -/
def SDLK_LEFT : Nat := 276

/-- The function `handleKeyboard`, acting on the global `xKeyDir`.  The local
`dir` is a `double` holding 1 or -1; adding it to an `int` and converting back
is exact, so the update is integer arithmetic (overflow aside). -/
def handleKeyboard {α T : Type} (g : Globals α T) (event : SDL_Event) : Globals α T :=
  if event.type ≠ SDL_KEYDOWN ∧ event.type ≠ SDL_KEYUP then g
  else
    let dir : Int := if event.type = SDL_KEYDOWN then 1 else -1
    if event.sym = SDLK_LEFT then { g with xKeyDir := { g.xKeyDir with x := g.xKeyDir.x - dir } }
    else if event.sym = SDLK_RIGHT then
      { g with xKeyDir := { g.xKeyDir with x := g.xKeyDir.x + dir } }
    else if event.sym = SDLK_UP then
      { g with xKeyDir := { g.xKeyDir with y := g.xKeyDir.y + dir } }
    else if event.sym = SDLK_DOWN then
      { g with xKeyDir := { g.xKeyDir with y := g.xKeyDir.y - dir } }
    else g

/-- The constant `xcSpeed`. -/
def xcSpeed {α : Type} (so : ScalarOps α) : α := so.lit 1
/-- The constant `xcRotSpeed`. -/
def xcRotSpeed {α : Type} (so : ScalarOps α) : α := so.lit 2

/-- The function `transformCamera`, acting on the camera transform and reading
`xKeyDir`.  The transform is updated in place, so `getAt` is taken after the
rotation. -/
def transformCamera {α Q T : Type} (so : ScalarOps α) (co : CamOps α Q T)
    (g : Globals α T) : Globals α T :=
  let up : Vector3d α := ⟨so.lit 0, so.lit 1, so.lit 0⟩
  let t0 := g.camera
  let t1 :=
    if g.xKeyDir.x < 0 then co.rotate t0 (co.fromAxisRot up (xcRotSpeed so))
    else if g.xKeyDir.x > 0 then co.rotate t0 (co.fromAxisRot up (so.neg (xcRotSpeed so)))
    else t0
  let t2 :=
    if g.xKeyDir.y < 0 then co.translate t1 (co.vscale (co.getAt t1) (xcSpeed so))
    else if g.xKeyDir.y > 0 then co.translate t1 (co.vscale (co.vneg (co.getAt t1)) (xcSpeed so))
    else t1
  { g with camera := t2 }

/-! ## The frame loop -/

/-- The locals of `main`. -/
structure Locals (M : Type) where
  scale : M
  translate : M
  rotationStep : M
  rotation : M
  transform : M
  quit : Bool

/-- What one pass of the frame loop consumes: the value `SDL_GetTicks` returns
and the events `SDL_PollEvent` would deliver before reporting an empty queue. -/
structure FrameInput where
  ticks : Nat
  events : List SDL_Event
deriving DecidableEq, Repr

/-- The loop `while (SDL_PollEvent(&event))` of lines 185 to 196; the result is
the globals and the value of `quit` after it. -/
def drain {α T : Type} (g : Globals α T) (quit : Bool) : List SDL_Event → Globals α T × Bool
  | [] => (g, quit)
  | event :: rest =>
    if event.type = SDL_QUIT then (g, true)
    else drain (handleKeyboard g event) quit rest

/-- Lines 171 to 183: clear, compute the matrix, render the mesh, present. -/
def renderFrame {α M T : Type} (so : ScalarOps α) (mo : MatOps α M)
    (s : Globals α T × Locals M) (currentTimeMs : Nat) : Globals α T × Locals M :=
  let g := s.1
  let l := s.2
  let g := { g with effects := g.effects ++ [Effect.clear 0x000AFF] }
  let g := { g with effects := g.effects ++ [Effect.clearDepthBuffer] }
  let x := so.mul (so.sin (so.div (so.ofUInt32 currentTimeMs) (so.lit 1000))) (so.lit 100)
  let l := { l with translate := mo.createTranslation x (so.lit 0) (so.neg (so.lit 100)) }
  let l := { l with rotation := mo.mul l.rotationStep l.rotation }
  let l := { l with transform := mo.mul (mo.mul l.translate l.rotation) l.scale }
  let r := renderMesh mo g.dragonMesh l.transform g.effects
  let g := { g with dragonMesh := r.1, effects := r.2 }
  let g := { g with effects := g.effects ++ [Effect.blit] }
  (g, l)

/-- One pass of the body of `while (!quit)`. -/
def frame {α Q T M : Type} (so : ScalarOps α) (mo : MatOps α M) (co : CamOps α Q T)
    (s : Globals α T × Locals M) (inp : FrameInput) : Globals α T × Locals M :=
  let s1 := renderFrame so mo s inp.ticks
  let d := drain s1.1 s1.2.quit inp.events
  let l := { s1.2 with quit := d.2 }
  let g := transformCamera so co d.1
  let g := if !l.quit then { g with effects := g.effects ++ [Effect.delay 10] } else g
  (g, l)

/-- The loop `while (!quit)` run on the inputs of successive passes.  When the
inputs run out with `quit` still false the loop has not ended. -/
def mainLoop {α Q T M : Type} (so : ScalarOps α) (mo : MatOps α M) (co : CamOps α Q T) :
    Globals α T × Locals M → List FrameInput → Globals α T × Locals M
  | s, [] => s
  | s, inp :: rest => if s.2.quit then s else mainLoop so mo co (frame so mo co s inp) rest

/-- How a run of `main` on finitely many frame inputs stands at its end. -/
inductive MainResult (α T M : Type) where
  /-- The process ended with the given status. -/
  | ended (status : Nat) (g : Globals α T)
  /-- The frame loop consumed all inputs and is still running. -/
  | running (g : Globals α T) (l : Locals M)
  /-- A read outside a buffer while loading. -/
  | fault (f : Fault)

/-- The window size constants `xcWinWidth` and `xcWinHeight`. -/
def xcWinWidth : Nat := 1024
/-- The constant `xcWinHeight`. -/
def xcWinHeight : Nat := 512

/-- The globals when `main` starts: an empty `dragonMesh`, `xKeyDir` zero (it
has static storage), no call made yet. -/
def globals0 {α Q T : Type} (co : CamOps α Q T) : Globals α T :=
  { dragonMesh := [], xKeyDir := ⟨0, 0⟩, camera := co.camera0, effects := [] }

/-- Lines 154 to 167: the state in which the frame loop is entered, given the
loaded mesh. -/
def setup {α Q T M : Type} (so : ScalarOps α) (mo : MatOps α M) (co : CamOps α Q T)
    (mesh : List (Triangle3d α)) : Globals α T × Locals M :=
  ({ globals0 co with
      dragonMesh := mesh
      effects := [Effect.sdlInit, Effect.newWindow xcWinWidth xcWinHeight, Effect.newRenderer] },
   { scale := mo.createScale (so.lit 10) (so.lit 10) (so.lit 10)
     translate := mo.createTranslation (so.lit 0) (so.lit 0) (so.neg (so.lit 100))
     rotationStep := mo.createRotationAroundAxis (so.lit 0) (so.div (so.lit 180) (so.lit 25))
       (so.lit 0)
     rotation := mo.mdefault
     transform := mo.mdefault
     quit := false })

/-- The function `main`, run on the inputs of finitely many frames. -/
def main {α Q T M : Type} (so : ScalarOps α) (vo : VecOps α) (mo : MatOps α M)
    (co : CamOps α Q T) (LoadObj : String → ParseResult α) (frames : List FrameInput) :
    MainResult α T M :=
  match loadObjFile vo LoadObj (globals0 co).dragonMesh "obj/cow.obj" with
  | LoadResult.exited code mesh => MainResult.ended code { globals0 co with dragonMesh := mesh }
  | LoadResult.fault f => MainResult.fault f
  | LoadResult.returned mesh =>
    let s := mainLoop so mo co (setup so mo co mesh) frames
    if s.2.quit then MainResult.ended 0 s.1 else MainResult.running s.1 s.2

/-! ## Vocabulary of the statements -/

/-- The bounds condition on one shape: every entry among the first
`3 * (indices.size() / 3)` entries of the index buffer converts to a
non-negative `idx` with `3*idx+2` inside both float buffers. -/
def InBounds {α : Type} (s : shape_t α) : Prop :=
  ∀ e ∈ s.mesh.indices.take (3 * (s.mesh.indices.length / 3)),
    0 ≤ toInt32 e ∧ 3 * toInt32 e + 2 < (s.mesh.positions.length : Int) ∧
      3 * toInt32 e + 2 < (s.mesh.normals.length : Int)

instance {α : Type} (s : shape_t α) : Decidable (InBounds s) := by
  unfold InBounds; infer_instance

/-- Number of events of the list with the given `type` and key. -/
def countKey (type sym : Nat) (events : List SDL_Event) : Int :=
  ((events.filter (fun e => e.type = type ∧ e.sym = sym)).length : Int)

/-- No event of the list is a quit signal. -/
def NoQuit (events : List SDL_Event) : Prop :=
  ∀ e ∈ events, e.type ≠ SDL_QUIT

instance (events : List SDL_Event) : Decidable (NoQuit events) := by
  unfold NoQuit; infer_instance

/-- The accumulator after `n` passes: `rotationStep` multiplied from the left
onto `r`, `n` times in succession. -/
def stepPower {α M : Type} (mo : MatOps α M) (step : M) : Nat → M → M
  | 0, r => r
  | n + 1, r => mo.mul step (stepPower mo step n r)

/-- The translation matrix that pass of the loop builds from the clock reading
`t`: `createTranslation(sin(t / 1000.0) * 100.0, 0.0, -100.0)`. -/
def translationAt {α M : Type} (so : ScalarOps α) (mo : MatOps α M) (t : Nat) : M :=
  mo.createTranslation
    (so.mul (so.sin (so.div (so.ofUInt32 t) (so.lit 1000))) (so.lit 100))
    (so.lit 0) (so.neg (so.lit 100))

/-- The shape with the trailing one or two index entries, those that do not
fill a group of three, removed. -/
def dropTrailing {α : Type} (s : shape_t α) : shape_t α :=
  { s with mesh := { s.mesh with
      indices := s.mesh.indices.take (3 * (s.mesh.indices.length / 3)) } }

/-! ## An interpretation over the integers, for evaluation on concrete inputs -/

/-- Vector operations over `Int`: componentwise difference, the usual cross
product, componentwise sign in place of normalisation, exact equality. -/
def intVecOps : VecOps Int where
  vzero := ⟨0, 0, 0⟩
  sub := fun a b => ⟨a.x - b.x, a.y - b.y, a.z - b.z⟩
  crossProduct := fun a b => ⟨a.y * b.z - a.z * b.y, a.z * b.x - a.x * b.z, a.x * b.y - a.y * b.x⟩
  normalize := fun a => ⟨Int.sign a.x, Int.sign a.y, Int.sign a.z⟩
  veq := fun a b => decide (a = b)
  triDefault := ⟨⟨0, 0, 0⟩, ⟨0, 0, 0⟩, ⟨0, 0, 0⟩, ⟨0, 0, 0⟩, ⟨0, 0, 0⟩, ⟨0, 0, 0⟩⟩

/-- Scalar operations over `Int`; `sin` is replaced by the identity. -/
def intScalarOps : ScalarOps Int where
  lit := fun n => (n : Int)
  neg := fun a => -a
  mul := fun a b => a * b
  div := fun a b => a / b
  sin := fun a => a
  ofUInt32 := fun n => (n : Int)

/-- Matrix expressions: the free interpretation of the matrix operations. -/
inductive MatExpr where
  | dflt
  | scale (x y z : Int)
  | trans (x y z : Int)
  | rot (x y z : Int)
  | mul (a b : MatExpr)
deriving DecidableEq, Repr

/-- Matrices as expressions, triangles moved by nothing: enough to observe
which products are formed. -/
def freeMatOps : MatOps Int MatExpr where
  mdefault := MatExpr.dflt
  createScale := MatExpr.scale
  createTranslation := MatExpr.trans
  createRotationAroundAxis := MatExpr.rot
  mul := MatExpr.mul
  transform := fun _ t => t

/-- Camera transforms replaced by the list of the operations applied. -/
def logCamOps : CamOps Int Int (List Int) where
  fromAxisRot := fun _ a => a
  rotate := fun t q => t ++ [q]
  translate := fun t v => t ++ [v.z]
  getAt := fun _ => ⟨0, 0, 1⟩
  vscale := fun v s => ⟨v.x * s, v.y * s, v.z * s⟩
  vneg := fun v => ⟨-v.x, -v.y, -v.z⟩
  camera0 := []

/-- A shape with one triangle and no authored normal (zero normals). -/
def flatShape : shape_t Int :=
  ⟨⟨[0, 0, 0, 1, 0, 0, 0, 1, 0], [0, 0, 0, 0, 0, 0, 0, 0, 0], [0, 1, 2]⟩⟩

/-- A shape with one triangle, authored normals, and one trailing index. -/
def authoredShape : shape_t Int :=
  ⟨⟨[0, 0, 0, 2, 0, 0, 0, 2, 0], [0, 0, 1, 0, 0, 0, 0, 1, 0], [0, 1, 2, 1]⟩⟩

/-- A shape whose normals buffer is empty. -/
def bareShape : shape_t Int :=
  ⟨⟨[0, 0, 0, 1, 0, 0, 0, 1, 0], [], [0, 1, 2]⟩⟩

/-- A parser that succeeds with the two shapes above. -/
def goodParser : String → ParseResult Int :=
  fun _ => ⟨"", [flatShape, authoredShape]⟩

/-- A parser that reports an error. -/
def badParser : String → ParseResult Int :=
  fun _ => ⟨"cannot open file", []⟩

/-- Globals with `xKeyDir` zero over the logging camera. -/
def sampleGlobals : Globals Int (List Int) := globals0 logCamOps

/-- The event key-down of `sym`. -/
def keyDown (sym : Nat) : SDL_Event := ⟨SDL_KEYDOWN, sym⟩
/-- The event key-up of `sym`. -/
def keyUp (sym : Nat) : SDL_Event := ⟨SDL_KEYUP, sym⟩
/-- The quit event. -/
def quitEvent : SDL_Event := ⟨SDL_QUIT, 0⟩

/-! ## Keyboard accumulation -/

theorem handleKeyboard_frame {α T : Type} (g : Globals α T) (e : SDL_Event) :
    (handleKeyboard g e).dragonMesh = g.dragonMesh ∧ (handleKeyboard g e).camera = g.camera ∧
      (handleKeyboard g e).effects = g.effects := by
  unfold handleKeyboard
  split_ifs <;> simp

theorem countKey_cons (t k : Nat) (e : SDL_Event) (es : List SDL_Event) :
    countKey t k (e :: es) = (if e.type = t ∧ e.sym = k then 1 else 0) + countKey t k es := by
  unfold countKey
  by_cases h : e.type = t ∧ e.sym = k
  · simp [List.filter_cons, h]; ring
  · simp [List.filter_cons, h]

theorem handleKeyboard_step {α T : Type} (g : Globals α T) (e : SDL_Event) :
    (handleKeyboard g e).xKeyDir.x =
        g.xKeyDir.x + (((if e.type = SDL_KEYDOWN ∧ e.sym = SDLK_RIGHT then 1 else 0)
            - (if e.type = SDL_KEYUP ∧ e.sym = SDLK_RIGHT then 1 else 0))
          - ((if e.type = SDL_KEYDOWN ∧ e.sym = SDLK_LEFT then 1 else 0)
            - (if e.type = SDL_KEYUP ∧ e.sym = SDLK_LEFT then 1 else 0))) ∧
      (handleKeyboard g e).xKeyDir.y =
        g.xKeyDir.y + (((if e.type = SDL_KEYDOWN ∧ e.sym = SDLK_UP then 1 else 0)
            - (if e.type = SDL_KEYUP ∧ e.sym = SDLK_UP then 1 else 0))
          - ((if e.type = SDL_KEYDOWN ∧ e.sym = SDLK_DOWN then 1 else 0)
            - (if e.type = SDL_KEYUP ∧ e.sym = SDLK_DOWN then 1 else 0))) := by
  obtain ⟨t, k⟩ := e
  simp only [handleKeyboard, SDL_KEYDOWN, SDL_KEYUP, SDLK_LEFT, SDLK_RIGHT, SDLK_UP, SDLK_DOWN]
  by_cases h2 : t = 2
  · subst h2
    by_cases k1 : k = 276
    · subst k1; simp; omega
    by_cases k2 : k = 275
    · subst k2; simp
    by_cases k3 : k = 273
    · subst k3; simp
    by_cases k4 : k = 274
    · subst k4; simp; omega
    simp [k1, k2, k3, k4]
  by_cases h3 : t = 3
  · subst h3
    by_cases k1 : k = 276
    · subst k1; simp
    by_cases k2 : k = 275
    · subst k2; simp
    by_cases k3 : k = 273
    · subst k3; simp
    by_cases k4 : k = 274
    · subst k4; simp
    simp [k1, k2, k3, k4]
  simp [h2, h3]

theorem handleKeyboard_fold {α T : Type} (es : List SDL_Event) (g : Globals α T) :
    (es.foldl handleKeyboard g).xKeyDir.x =
        g.xKeyDir.x + ((countKey SDL_KEYDOWN SDLK_RIGHT es - countKey SDL_KEYUP SDLK_RIGHT es)
          - (countKey SDL_KEYDOWN SDLK_LEFT es - countKey SDL_KEYUP SDLK_LEFT es)) ∧
      (es.foldl handleKeyboard g).xKeyDir.y =
        g.xKeyDir.y + ((countKey SDL_KEYDOWN SDLK_UP es - countKey SDL_KEYUP SDLK_UP es)
          - (countKey SDL_KEYDOWN SDLK_DOWN es - countKey SDL_KEYUP SDLK_DOWN es)) := by
  induction es generalizing g with
  | nil => simp [countKey]
  | cons e es ih =>
    rw [List.foldl_cons]
    obtain ⟨hx, hy⟩ := ih (handleKeyboard g e)
    obtain ⟨sx, sy⟩ := handleKeyboard_step g e
    rw [hx, hy, sx, sy]
    simp only [countKey_cons]
    constructor <;> ring

/-- C9.  Starting from `xKeyDir = (0,0)`, after any finite sequence of events
the horizontal component is (#down(RIGHT) - #up(RIGHT)) - (#down(LEFT) -
#up(LEFT)) and the vertical one (#down(UP) - #up(UP)) - (#down(DOWN) -
#up(DOWN)); each directional key event moves exactly one component by exactly
one and keeps the other; a key-up undoes the matching key-down; events that are
neither key-down nor key-up, or whose key is none of the four, change nothing;
two key-down(LEFT) and one key-up(LEFT) leave the horizontal component at -1. -/
theorem handleKeyboard_accumulates {α T : Type} (g : Globals α T) (es : List SDL_Event)
    (h0 : g.xKeyDir = ⟨0, 0⟩) :
    (es.foldl handleKeyboard g).xKeyDir.x =
        (countKey SDL_KEYDOWN SDLK_RIGHT es - countKey SDL_KEYUP SDLK_RIGHT es)
          - (countKey SDL_KEYDOWN SDLK_LEFT es - countKey SDL_KEYUP SDLK_LEFT es) ∧
      (es.foldl handleKeyboard g).xKeyDir.y =
        (countKey SDL_KEYDOWN SDLK_UP es - countKey SDL_KEYUP SDLK_UP es)
          - (countKey SDL_KEYDOWN SDLK_DOWN es - countKey SDL_KEYUP SDLK_DOWN es) ∧
      (∀ k : Globals α T,
        (handleKeyboard k (keyDown SDLK_LEFT)).xKeyDir = ⟨k.xKeyDir.x - 1, k.xKeyDir.y⟩ ∧
        (handleKeyboard k (keyUp SDLK_LEFT)).xKeyDir = ⟨k.xKeyDir.x + 1, k.xKeyDir.y⟩ ∧
        (handleKeyboard k (keyDown SDLK_RIGHT)).xKeyDir = ⟨k.xKeyDir.x + 1, k.xKeyDir.y⟩ ∧
        (handleKeyboard k (keyUp SDLK_RIGHT)).xKeyDir = ⟨k.xKeyDir.x - 1, k.xKeyDir.y⟩ ∧
        (handleKeyboard k (keyDown SDLK_UP)).xKeyDir = ⟨k.xKeyDir.x, k.xKeyDir.y + 1⟩ ∧
        (handleKeyboard k (keyUp SDLK_UP)).xKeyDir = ⟨k.xKeyDir.x, k.xKeyDir.y - 1⟩ ∧
        (handleKeyboard k (keyDown SDLK_DOWN)).xKeyDir = ⟨k.xKeyDir.x, k.xKeyDir.y - 1⟩ ∧
        (handleKeyboard k (keyUp SDLK_DOWN)).xKeyDir = ⟨k.xKeyDir.x, k.xKeyDir.y + 1⟩) ∧
      (∀ (k : Globals α T) (sym : Nat),
        handleKeyboard (handleKeyboard k (keyDown sym)) (keyUp sym) = k) ∧
      (∀ (k : Globals α T) (e : SDL_Event),
        (e.type ≠ SDL_KEYDOWN ∧ e.type ≠ SDL_KEYUP) ∨
          (e.sym ≠ SDLK_LEFT ∧ e.sym ≠ SDLK_RIGHT ∧ e.sym ≠ SDLK_UP ∧ e.sym ≠ SDLK_DOWN) →
        handleKeyboard k e = k) ∧
      ([keyDown SDLK_LEFT, keyDown SDLK_LEFT, keyUp SDLK_LEFT].foldl
        handleKeyboard g).xKeyDir.x = -1 := by
  obtain ⟨hx, hy⟩ := handleKeyboard_fold es g
  refine ⟨by rw [hx, h0]; simp, by rw [hy, h0]; simp, ?_, ?_, ?_, ?_⟩
  · intro k
    simp [handleKeyboard, keyDown, keyUp, SDL_KEYDOWN, SDL_KEYUP, SDLK_LEFT, SDLK_RIGHT,
      SDLK_UP, SDLK_DOWN, sub_eq_add_neg]
  · intro k sym
    obtain ⟨mesh, ⟨x, y⟩, cam, eff⟩ := k
    simp only [handleKeyboard, keyDown, keyUp, SDL_KEYDOWN, SDL_KEYUP]
    split_ifs <;> simp_all
  · intro k e h
    unfold handleKeyboard
    rcases h with h | ⟨h1, h2, h3, h4⟩
    · simp [h]
    · simp [h1, h2, h3, h4]
  · obtain ⟨hx3, _⟩ := handleKeyboard_fold
      [keyDown SDLK_LEFT, keyDown SDLK_LEFT, keyUp SDLK_LEFT] g
    rw [hx3, h0]
    decide

/-- Witness for C9 on a concrete event sequence. -/
theorem handleKeyboard_accumulates_witness :
    sampleGlobals.xKeyDir = ⟨0, 0⟩ ∧
      ([keyDown SDLK_RIGHT, keyDown SDLK_UP, keyDown SDLK_RIGHT, keyUp SDLK_RIGHT,
          keyDown 97, keyDown SDLK_LEFT].foldl handleKeyboard sampleGlobals).xKeyDir.x =
        (countKey SDL_KEYDOWN SDLK_RIGHT [keyDown SDLK_RIGHT, keyDown SDLK_UP,
            keyDown SDLK_RIGHT, keyUp SDLK_RIGHT, keyDown 97, keyDown SDLK_LEFT]
          - countKey SDL_KEYUP SDLK_RIGHT [keyDown SDLK_RIGHT, keyDown SDLK_UP,
            keyDown SDLK_RIGHT, keyUp SDLK_RIGHT, keyDown 97, keyDown SDLK_LEFT])
          - (countKey SDL_KEYDOWN SDLK_LEFT [keyDown SDLK_RIGHT, keyDown SDLK_UP,
            keyDown SDLK_RIGHT, keyUp SDLK_RIGHT, keyDown 97, keyDown SDLK_LEFT]
          - countKey SDL_KEYUP SDLK_LEFT [keyDown SDLK_RIGHT, keyDown SDLK_UP,
            keyDown SDLK_RIGHT, keyUp SDLK_RIGHT, keyDown 97, keyDown SDLK_LEFT]) :=
  ⟨rfl, (handleKeyboard_accumulates sampleGlobals _ rfl).1⟩

/-! ## The camera step -/

/-- C5.  One call of `transformCamera` rotates once about (0,1,0) by
`+xcRotSpeed` when `xKeyDir.x < 0`, once by `-xcRotSpeed` when `xKeyDir.x > 0`
and not at all when it is zero; it then translates once by `getAt() * xcSpeed`
when `xKeyDir.y < 0`, once by `-getAt() * xcSpeed` when `xKeyDir.y > 0` and not
at all when it is zero (`getAt` being read from the transform as it stands
after the rotation step).  Everything but the camera, `xKeyDir` included, is
left as it was, and the resulting camera depends on `xKeyDir` through the signs
of its two components only. -/
theorem transformCamera_step {α Q T : Type} (so : ScalarOps α) (co : CamOps α Q T)
    (g : Globals α T) :
    (∃ t1 : T,
      (g.xKeyDir.x < 0 →
        t1 = co.rotate g.camera (co.fromAxisRot ⟨so.lit 0, so.lit 1, so.lit 0⟩ (xcRotSpeed so))) ∧
      (g.xKeyDir.x > 0 →
        t1 = co.rotate g.camera
          (co.fromAxisRot ⟨so.lit 0, so.lit 1, so.lit 0⟩ (so.neg (xcRotSpeed so)))) ∧
      (g.xKeyDir.x = 0 → t1 = g.camera) ∧
      (g.xKeyDir.y < 0 →
        (transformCamera so co g).camera =
          co.translate t1 (co.vscale (co.getAt t1) (xcSpeed so))) ∧
      (g.xKeyDir.y > 0 →
        (transformCamera so co g).camera =
          co.translate t1 (co.vscale (co.vneg (co.getAt t1)) (xcSpeed so))) ∧
      (g.xKeyDir.y = 0 → (transformCamera so co g).camera = t1)) ∧
    (transformCamera so co g).xKeyDir = g.xKeyDir ∧
    (transformCamera so co g).dragonMesh = g.dragonMesh ∧
    (transformCamera so co g).effects = g.effects ∧
    (∀ k : Globals α T, k.camera = g.camera → Int.sign k.xKeyDir.x = Int.sign g.xKeyDir.x →
      Int.sign k.xKeyDir.y = Int.sign g.xKeyDir.y →
      (transformCamera so co k).camera = (transformCamera so co g).camera) := by
  refine ⟨?_, rfl, rfl, rfl, ?_⟩
  · refine ⟨if g.xKeyDir.x < 0 then
        co.rotate g.camera (co.fromAxisRot ⟨so.lit 0, so.lit 1, so.lit 0⟩ (xcRotSpeed so))
      else if g.xKeyDir.x > 0 then
        co.rotate g.camera (co.fromAxisRot ⟨so.lit 0, so.lit 1, so.lit 0⟩ (so.neg (xcRotSpeed so)))
      else g.camera, ?_, ?_, ?_, ?_, ?_, ?_⟩
    · intro h; simp [h]
    · intro h
      have h' : ¬ g.xKeyDir.x < 0 := by omega
      simp [h, h']
    · intro h; simp [h]
    · intro h; simp [transformCamera, h]
    · intro h
      have h' : ¬ g.xKeyDir.y < 0 := by omega
      simp [transformCamera, h, h']
    · intro h; simp [transformCamera, h]
  · intro k hc hx hy
    have hxn : k.xKeyDir.x < 0 ↔ g.xKeyDir.x < 0 := by
      rw [← Int.sign_eq_neg_one_iff_neg, ← Int.sign_eq_neg_one_iff_neg, hx]
    have hxp : k.xKeyDir.x > 0 ↔ g.xKeyDir.x > 0 := by
      rw [gt_iff_lt, gt_iff_lt, ← Int.sign_eq_one_iff_pos, ← Int.sign_eq_one_iff_pos, hx]
    have hyn : k.xKeyDir.y < 0 ↔ g.xKeyDir.y < 0 := by
      rw [← Int.sign_eq_neg_one_iff_neg, ← Int.sign_eq_neg_one_iff_neg, hy]
    have hyp : k.xKeyDir.y > 0 ↔ g.xKeyDir.y > 0 := by
      rw [gt_iff_lt, gt_iff_lt, ← Int.sign_eq_one_iff_pos, ← Int.sign_eq_one_iff_pos, hy]
    simp only [transformCamera, hc, hxn, hxp, hyn, hyp]

/-- Witness for C5: a held LEFT key and a held UP key give one rotation by the
positive step followed by one backward translation. -/
theorem transformCamera_step_witness :
    (transformCamera intScalarOps logCamOps
        { sampleGlobals with xKeyDir := ⟨-3, 2⟩ }).camera = [2, -1] ∧
      (transformCamera intScalarOps logCamOps
        { sampleGlobals with xKeyDir := ⟨-3, 2⟩ }).camera =
      (transformCamera intScalarOps logCamOps
        { sampleGlobals with xKeyDir := ⟨-1, 1⟩ }).camera :=
  ⟨by decide,
   ((transformCamera_step intScalarOps logCamOps { sampleGlobals with xKeyDir := ⟨-1, 1⟩ }).2.2.2.2
      { sampleGlobals with xKeyDir := ⟨-3, 2⟩ } rfl (by decide) (by decide))⟩

/-! ## Rendering a mesh -/

theorem renderMesh_foldl {α M : Type} (mo : MatOps α M) (mesh : List (Triangle3d α))
    (m : M) (effects : List (Effect α)) :
    mesh.foldl (fun acc tri => acc ++ [Effect.renderTriangle (mo.transform m tri)]) effects =
      effects ++ mesh.map (fun tri => Effect.renderTriangle (mo.transform m tri)) := by
  induction mesh generalizing effects with
  | nil => simp
  | cons t ts ih => rw [List.foldl_cons, ih]; simp

theorem renderMesh_effects {α M : Type} (mo : MatOps α M) (mesh : List (Triangle3d α))
    (m : M) (effects : List (Effect α)) :
    (renderMesh mo mesh m effects).2 =
      effects ++ mesh.map (fun tri => Effect.renderTriangle (mo.transform m tri)) :=
  renderMesh_foldl mo mesh m effects

/-- C7.  `renderMesh` submits exactly one triangle per mesh triangle, in mesh
order, the k-th being `math::transform` of the matrix and the k-th mesh
triangle; nothing else is submitted, as many triangles are submitted as the
mesh has, and the mesh is the same after the call. -/
theorem renderMesh_submits {α M : Type} (mo : MatOps α M) (mesh : List (Triangle3d α))
    (m : M) (effects : List (Effect α)) :
    (renderMesh mo mesh m effects).2 =
        effects ++ mesh.map (fun tri => Effect.renderTriangle (mo.transform m tri)) ∧
      ((renderMesh mo mesh m effects).2.drop effects.length).length = mesh.length ∧
      (∀ k : Nat, ∀ tri ∈ mesh[k]?,
        ((renderMesh mo mesh m effects).2.drop effects.length)[k]? =
          some (Effect.renderTriangle (mo.transform m tri))) ∧
      (renderMesh mo mesh m effects).1 = mesh := by
  rw [renderMesh_effects]
  refine ⟨rfl, by simp, ?_, rfl⟩
  intro k tri hk
  simp at hk
  simp [hk]

/-- Witness for C7: a mesh of two triangles yields two submissions, in order,
after what the renderer had already received. -/
theorem renderMesh_submits_witness :
    (renderMesh freeMatOps
        [⟨⟨0, 0, 0⟩, ⟨1, 0, 0⟩, ⟨0, 1, 0⟩, ⟨0, 0, 1⟩, ⟨0, 0, 1⟩, ⟨0, 0, 1⟩⟩,
         ⟨⟨0, 0, 0⟩, ⟨2, 0, 0⟩, ⟨0, 2, 0⟩, ⟨0, 0, 1⟩, ⟨0, 0, 0⟩, ⟨0, 1, 0⟩⟩]
        (MatExpr.scale 10 10 10) [Effect.clearDepthBuffer]).2 =
      [Effect.clearDepthBuffer] ++
        [(⟨⟨0, 0, 0⟩, ⟨1, 0, 0⟩, ⟨0, 1, 0⟩, ⟨0, 0, 1⟩, ⟨0, 0, 1⟩, ⟨0, 0, 1⟩⟩ : Triangle3d Int),
         ⟨⟨0, 0, 0⟩, ⟨2, 0, 0⟩, ⟨0, 2, 0⟩, ⟨0, 0, 1⟩, ⟨0, 0, 0⟩, ⟨0, 1, 0⟩⟩].map
          (fun tri => Effect.renderTriangle (freeMatOps.transform (MatExpr.scale 10 10 10) tri)) :=
  (renderMesh_submits freeMatOps _ (MatExpr.scale 10 10 10) [Effect.clearDepthBuffer]).1

/-! ## Mesh loading: the loop body -/

theorem convertTriangle_eq_ok {α : Type} (ops : VecOps α) (s : shape_t α) (tri t : Triangle3d α)
    (i : Nat) :
    convertTriangle ops s tri i = .ok t ↔
      ∃ e0 e1 e2 p0 n0 p1 n1 p2 n2,
        s.mesh.indices[3 * i + 0]? = some e0 ∧
        s.mesh.indices[3 * i + 1]? = some e1 ∧
        s.mesh.indices[3 * i + 2]? = some e2 ∧
        unmarshalVector (toInt32 e0) s.mesh.positions = some p0 ∧
        unmarshalVector (toInt32 e0) s.mesh.normals = some n0 ∧
        unmarshalVector (toInt32 e1) s.mesh.positions = some p1 ∧
        unmarshalVector (toInt32 e1) s.mesh.normals = some n1 ∧
        unmarshalVector (toInt32 e2) s.mesh.positions = some p2 ∧
        unmarshalVector (toInt32 e2) s.mesh.normals = some n2 ∧
        t = fixNormals ops ⟨p0, p1, p2, n0, n1, n2⟩ := by
  unfold convertTriangle readIndex fetch
  cases h0 : s.mesh.indices[3 * i + 0]? with
  | none => simp [bind, Except.bind]
  | some e0 =>
  cases hp0 : unmarshalVector (toInt32 e0) s.mesh.positions with
  | none => simp [bind, Except.bind, hp0]
  | some p0 =>
  cases hn0 : unmarshalVector (toInt32 e0) s.mesh.normals with
  | none => simp [bind, Except.bind, hp0, hn0]
  | some n0 =>
  cases h1 : s.mesh.indices[3 * i + 1]? with
  | none => simp [bind, Except.bind, hp0, hn0]
  | some e1 =>
  cases hp1 : unmarshalVector (toInt32 e1) s.mesh.positions with
  | none => simp [bind, Except.bind, hp0, hn0, hp1]
  | some p1 =>
  cases hn1 : unmarshalVector (toInt32 e1) s.mesh.normals with
  | none => simp [bind, Except.bind, hp0, hn0, hp1, hn1]
  | some n1 =>
  cases h2 : s.mesh.indices[3 * i + 2]? with
  | none => simp [bind, Except.bind, hp0, hn0, hp1, hn1]
  | some e2 =>
  cases hp2 : unmarshalVector (toInt32 e2) s.mesh.positions with
  | none => simp [bind, Except.bind, hp0, hn0, hp1, hn1, hp2]
  | some p2 =>
  cases hn2 : unmarshalVector (toInt32 e2) s.mesh.normals with
  | none => simp [bind, Except.bind, hp0, hn0, hp1, hn1, hp2, hn2]
  | some n2 =>
    simp [bind, Except.bind, hp0, hn0, hp1, hn1, hp2, hn2, pure, Except.pure, eq_comm]

/-- The loop body never reads the value the previous iteration left in `tri`. -/
theorem convertTriangle_indep {α : Type} (ops : VecOps α) (s : shape_t α)
    (tri tri' : Triangle3d α) (i : Nat) :
    convertTriangle ops s tri i = convertTriangle ops s tri' i := by
  unfold convertTriangle readIndex fetch
  cases h0 : s.mesh.indices[3 * i + 0]? with
  | none => simp [bind, Except.bind]
  | some e0 =>
  cases hp0 : unmarshalVector (toInt32 e0) s.mesh.positions with
  | none => simp [bind, Except.bind, hp0]
  | some p0 =>
  cases hn0 : unmarshalVector (toInt32 e0) s.mesh.normals with
  | none => simp [bind, Except.bind, hp0, hn0]
  | some n0 =>
  cases h1 : s.mesh.indices[3 * i + 1]? with
  | none => simp [bind, Except.bind, hp0, hn0]
  | some e1 =>
  cases hp1 : unmarshalVector (toInt32 e1) s.mesh.positions with
  | none => simp [bind, Except.bind, hp0, hn0, hp1]
  | some p1 =>
  cases hn1 : unmarshalVector (toInt32 e1) s.mesh.normals with
  | none => simp [bind, Except.bind, hp0, hn0, hp1, hn1]
  | some n1 =>
  cases h2 : s.mesh.indices[3 * i + 2]? with
  | none => simp [bind, Except.bind, hp0, hn0, hp1, hn1]
  | some e2 =>
  cases hp2 : unmarshalVector (toInt32 e2) s.mesh.positions with
  | none => simp [bind, Except.bind, hp0, hn0, hp1, hn1, hp2]
  | some p2 =>
  cases hn2 : unmarshalVector (toInt32 e2) s.mesh.normals with
  | none => simp [bind, Except.bind, hp0, hn0, hp1, hn1, hp2, hn2]
  | some n2 =>
    simp [bind, Except.bind, hp0, hn0, hp1, hn1, hp2, hn2, pure, Except.pure]

/-- Inside a full group the reads of the index buffer succeed, so the loop body
can only fault on the float buffers. -/
theorem convertTriangle_no_index_fault {α : Type} (ops : VecOps α) (s : shape_t α)
    (tri : Triangle3d α) (i : Nat) (hi : i < s.mesh.indices.length / 3) :
    convertTriangle ops s tri i ≠ .error Fault.indices := by
  have l0 : 3 * i + 0 < s.mesh.indices.length := by omega
  have l1 : 3 * i + 1 < s.mesh.indices.length := by omega
  have l2 : 3 * i + 2 < s.mesh.indices.length := by omega
  obtain ⟨e0, h0⟩ : ∃ e, s.mesh.indices[3 * i + 0]? = some e := ⟨_, List.getElem?_eq_getElem l0⟩
  obtain ⟨e1, h1⟩ : ∃ e, s.mesh.indices[3 * i + 1]? = some e := ⟨_, List.getElem?_eq_getElem l1⟩
  obtain ⟨e2, h2⟩ : ∃ e, s.mesh.indices[3 * i + 2]? = some e := ⟨_, List.getElem?_eq_getElem l2⟩
  unfold convertTriangle readIndex fetch
  rw [h0, h1, h2]
  cases hp0 : unmarshalVector (toInt32 e0) s.mesh.positions with
  | none => simp [bind, Except.bind, hp0]
  | some p0 =>
  cases hn0 : unmarshalVector (toInt32 e0) s.mesh.normals with
  | none => simp [bind, Except.bind, hp0, hn0]
  | some n0 =>
  cases hp1 : unmarshalVector (toInt32 e1) s.mesh.positions with
  | none => simp [bind, Except.bind, hp0, hn0, hp1]
  | some p1 =>
  cases hn1 : unmarshalVector (toInt32 e1) s.mesh.normals with
  | none => simp [bind, Except.bind, hp0, hn0, hp1, hn1]
  | some n1 =>
  cases hp2 : unmarshalVector (toInt32 e2) s.mesh.positions with
  | none => simp [bind, Except.bind, hp0, hn0, hp1, hn1, hp2]
  | some p2 =>
  cases hn2 : unmarshalVector (toInt32 e2) s.mesh.normals with
  | none => simp [bind, Except.bind, hp0, hn0, hp1, hn1, hp2, hn2]
  | some n2 =>
    simp [bind, Except.bind, hp0, hn0, hp1, hn1, hp2, hn2, pure, Except.pure]

theorem readAt_isSome {α : Type} (data : List α) (i : Int) (h0 : 0 ≤ i)
    (h1 : i < (data.length : Int)) : ∃ v, readAt data i = some v := by
  have hlt : i.toNat < data.length := by omega
  exact ⟨data[i.toNat], by simp [readAt, h0, List.getElem?_eq_getElem hlt]⟩

theorem unmarshalVector_isSome {α : Type} (idx : Int) (data : List α) (h0 : 0 ≤ idx)
    (h1 : 3 * idx + 2 < (data.length : Int)) : ∃ v, unmarshalVector idx data = some v := by
  obtain ⟨a, ha⟩ := readAt_isSome data (3 * idx + 0) (by omega) (by omega)
  obtain ⟨b, hb⟩ := readAt_isSome data (3 * idx + 1) (by omega) (by omega)
  obtain ⟨c, hc⟩ := readAt_isSome data (3 * idx + 2) (by omega) (by omega)
  exact ⟨⟨a, b, c⟩, by rw [unmarshalVector, ha, hb, hc]⟩

theorem unmarshalVector_reads {α : Type} (idx : Int) (data : List α) (v : Vector3d α)
    (h : unmarshalVector idx data = some v) :
    0 ≤ idx ∧ data[(3 * idx + 0).toNat]? = some v.x ∧ data[(3 * idx + 1).toNat]? = some v.y ∧
      data[(3 * idx + 2).toNat]? = some v.z := by
  unfold unmarshalVector readAt at h
  by_cases h0 : 0 ≤ idx
  · have a0 : 0 ≤ 3 * idx + 0 := by omega
    have a1 : 0 ≤ 3 * idx + 1 := by omega
    have a2 : 0 ≤ 3 * idx + 2 := by omega
    simp only [a0, a1, a2, if_true] at h
    split at h
    · rename_i a b c ha hb hc
      simp only [Option.some.injEq] at h
      subst h
      exact ⟨h0, ha, hb, hc⟩
    · simp at h
  · have a0 : ¬ 0 ≤ 3 * idx + 0 := by omega
    simp only [if_neg a0] at h
    simp at h

/-- Under the bounds condition the body of the loop succeeds on every full
group. -/
theorem convertTriangle_isOk {α : Type} (ops : VecOps α) (s : shape_t α) (hb : InBounds s)
    (tri : Triangle3d α) (i : Nat) (hi : i < s.mesh.indices.length / 3) :
    ∃ t, convertTriangle ops s tri i = .ok t := by
  have key : ∀ j, j < 3 → ∃ e, s.mesh.indices[3 * i + j]? = some e ∧
      (∃ p, unmarshalVector (toInt32 e) s.mesh.positions = some p) ∧
      (∃ n, unmarshalVector (toInt32 e) s.mesh.normals = some n) := by
    intro j hj
    have hlt : 3 * i + j < s.mesh.indices.length := by omega
    have hget : s.mesh.indices[3 * i + j]? = some s.mesh.indices[3 * i + j] :=
      List.getElem?_eq_getElem hlt
    have hmem : s.mesh.indices[3 * i + j] ∈
        s.mesh.indices.take (3 * (s.mesh.indices.length / 3)) := by
      have hin : (s.mesh.indices.take (3 * (s.mesh.indices.length / 3)))[3 * i + j]? =
          some s.mesh.indices[3 * i + j] := by
        rw [List.getElem?_take_of_lt (by omega), hget]
      exact List.getElem?_mem hin
    obtain ⟨h0, hp, hn⟩ := hb _ hmem
    exact ⟨_, hget, unmarshalVector_isSome _ _ h0 hp, unmarshalVector_isSome _ _ h0 hn⟩
  obtain ⟨e0, h0, ⟨p0, hp0⟩, ⟨n0, hn0⟩⟩ := key 0 (by omega)
  obtain ⟨e1, h1, ⟨p1, hp1⟩, ⟨n1, hn1⟩⟩ := key 1 (by omega)
  obtain ⟨e2, h2, ⟨p2, hp2⟩, ⟨n2, hn2⟩⟩ := key 2 (by omega)
  exact ⟨_, (convertTriangle_eq_ok ops s tri _ i).2
    ⟨e0, e1, e2, p0, n0, p1, n1, p2, n2, h0, h1, h2, hp0, hn0, hp1, hn1, hp2, hn2, rfl⟩⟩

/-! ## Mesh loading: the loops -/

theorem convertLoop_eq_ok {α : Type} (ops : VecOps α) (s : shape_t α) (ks : List Nat) :
    ∀ (tri : Triangle3d α) (mesh mesh' : List (Triangle3d α)),
      convertLoop ops s ks tri mesh = .ok mesh' ↔
        ∃ ts, mesh' = mesh ++ ts ∧
          List.Forall₂ (fun k t => convertTriangle ops s ops.triDefault k = .ok t) ks ts := by
  induction ks with
  | nil =>
    intro tri mesh mesh'
    simp [convertLoop, List.forall₂_nil_left_iff, eq_comm]
  | cons i rest ih =>
    intro tri mesh mesh'
    unfold convertLoop
    rw [convertTriangle_indep ops s tri ops.triDefault]
    cases h : convertTriangle ops s ops.triDefault i with
    | error f =>
      constructor
      · intro h'
        simp at h'
      · rintro ⟨ts, -, hts⟩
        obtain ⟨t', ts', ht', -, -⟩ := List.forall₂_cons_left_iff.1 hts
        rw [h] at ht'
        cases ht'
    | ok t =>
      simp only []
      rw [ih]
      constructor
      · rintro ⟨ts, rfl, hts⟩
        exact ⟨t :: ts, by simp, List.Forall₂.cons h hts⟩
      · rintro ⟨ts, rfl, hts⟩
        obtain ⟨t', ts', ht', hts', rfl⟩ := List.forall₂_cons_left_iff.1 hts
        rw [h] at ht'
        simp only [Except.ok.injEq] at ht'
        subst ht'
        exact ⟨ts', by simp, hts'⟩

theorem convertLoop_error {α : Type} (ops : VecOps α) (s : shape_t α) (ks : List Nat) :
    ∀ (tri : Triangle3d α) (mesh : List (Triangle3d α)) (f : Fault),
      convertLoop ops s ks tri mesh = .error f →
        ∃ k ∈ ks, convertTriangle ops s ops.triDefault k = .error f := by
  induction ks with
  | nil => intro tri mesh f h; simp [convertLoop] at h
  | cons i rest ih =>
    intro tri mesh f h
    unfold convertLoop at h
    rw [convertTriangle_indep ops s tri ops.triDefault] at h
    cases hc : convertTriangle ops s ops.triDefault i with
    | error f' =>
      rw [hc] at h
      simp only [Except.error.injEq] at h
      subst h
      exact ⟨i, by simp, hc⟩
    | ok t =>
      rw [hc] at h
      obtain ⟨k, hk, hk'⟩ := ih _ _ _ h
      exact ⟨k, by simp [hk], hk'⟩

theorem convertLoop_isOk {α : Type} (ops : VecOps α) (s : shape_t α) (ks : List Nat)
    (hks : ∀ k ∈ ks, ∃ t, convertTriangle ops s ops.triDefault k = .ok t)
    (tri : Triangle3d α) (mesh : List (Triangle3d α)) :
    ∃ mesh', convertLoop ops s ks tri mesh = .ok mesh' := by
  cases h : convertLoop ops s ks tri mesh with
  | ok m => exact ⟨m, rfl⟩
  | error f =>
    obtain ⟨k, hk, hk'⟩ := convertLoop_error ops s ks tri mesh f h
    obtain ⟨t, ht⟩ := hks k hk
    rw [ht] at hk'
    cases hk'

/-- The per-shape relation between a shape and the triangles it contributes:
one triangle per full index group, each the result of the loop body. -/
theorem convertShapes_eq_ok {α : Type} (ops : VecOps α) (shapes : List (shape_t α)) :
    ∀ (mesh mesh' : List (Triangle3d α)),
      convertShapes ops shapes mesh = .ok mesh' ↔
        ∃ tss : List (List (Triangle3d α)), mesh' = mesh ++ tss.flatten ∧
          List.Forall₂ (fun s ts =>
            List.Forall₂ (fun k t => convertTriangle ops s ops.triDefault k = .ok t)
              (List.range (s.mesh.indices.length / 3)) ts) shapes tss := by
  induction shapes with
  | nil =>
    intro mesh mesh'
    simp [convertShapes, List.forall₂_nil_left_iff, eq_comm]
  | cons s rest ih =>
    intro mesh mesh'
    unfold convertShapes
    cases h : convertShape ops s mesh with
    | error f =>
      constructor
      · intro h'
        simp at h'
      · rintro ⟨tss, -, htss⟩
        obtain ⟨ts, tss', hts, -, -⟩ := List.forall₂_cons_left_iff.1 htss
        have := (convertLoop_eq_ok ops s _ ops.triDefault mesh (mesh ++ ts)).2 ⟨ts, rfl, hts⟩
        unfold convertShape at h
        rw [h] at this
        cases this
    | ok m =>
      obtain ⟨ts0, rfl, hts0⟩ := (convertLoop_eq_ok ops s _ ops.triDefault mesh m).1 h
      simp only []
      rw [ih]
      constructor
      · rintro ⟨tss, rfl, htss⟩
        exact ⟨ts0 :: tss, by simp, List.Forall₂.cons hts0 htss⟩
      · rintro ⟨tss, rfl, htss⟩
        obtain ⟨ts, tss', hts, htss', rfl⟩ := List.forall₂_cons_left_iff.1 htss
        have e1 := (convertLoop_eq_ok ops s _ ops.triDefault mesh (mesh ++ ts)).2 ⟨ts, rfl, hts⟩
        unfold convertShape at h
        rw [h] at e1
        simp only [Except.ok.injEq, List.append_cancel_left_eq] at e1
        subst e1
        exact ⟨tss', by simp, htss'⟩

theorem convertShapes_error {α : Type} (ops : VecOps α) (shapes : List (shape_t α)) :
    ∀ (mesh : List (Triangle3d α)) (f : Fault),
      convertShapes ops shapes mesh = .error f →
        ∃ s ∈ shapes, ∃ k, k < s.mesh.indices.length / 3 ∧
          convertTriangle ops s ops.triDefault k = .error f := by
  induction shapes with
  | nil => intro mesh f h; simp [convertShapes] at h
  | cons s rest ih =>
    intro mesh f h
    unfold convertShapes at h
    cases hc : convertShape ops s mesh with
    | error f' =>
      rw [hc] at h
      simp only [Except.error.injEq] at h
      subst h
      obtain ⟨k, hk, hk'⟩ := convertLoop_error ops s _ _ _ _ hc
      exact ⟨s, by simp, k, List.mem_range.1 hk, hk'⟩
    | ok m =>
      rw [hc] at h
      obtain ⟨s', hs', k, hk, hk'⟩ := ih _ _ h
      exact ⟨s', by simp [hs'], k, hk, hk'⟩

theorem convertShapes_isOk {α : Type} (ops : VecOps α) (shapes : List (shape_t α))
    (hb : ∀ s ∈ shapes, InBounds s) (mesh : List (Triangle3d α)) :
    ∃ mesh', convertShapes ops shapes mesh = .ok mesh' := by
  cases h : convertShapes ops shapes mesh with
  | ok m => exact ⟨m, rfl⟩
  | error f =>
    obtain ⟨s, hs, k, hk, hk'⟩ := convertShapes_error ops shapes mesh f h
    obtain ⟨t, ht⟩ := convertTriangle_isOk ops s (hb s hs) ops.triDefault k hk
    rw [ht] at hk'
    cases hk'

theorem forall₂_range_index {β : Type} (R : Nat → β → Prop) (n : Nat) (ts : List β)
    (h : List.Forall₂ R (List.range n) ts) :
    ts.length = n ∧ ∀ (k : Nat) (hk : k < ts.length), R k ts[k] := by
  obtain ⟨hlen, hget⟩ := List.forall₂_iff_get.1 h
  rw [List.length_range] at hlen
  refine ⟨hlen.symm, fun k hk => ?_⟩
  have := hget k (by rw [List.length_range]; omega) hk
  simpa using this

theorem fixNormals_spec {α : Type} (ops : VecOps α) (p0 p1 p2 a0 a1 a2 : Vector3d α) :
    (fixNormals ops ⟨p0, p1, p2, a0, a1, a2⟩).p0 = p0 ∧
    (fixNormals ops ⟨p0, p1, p2, a0, a1, a2⟩).p1 = p1 ∧
    (fixNormals ops ⟨p0, p1, p2, a0, a1, a2⟩).p2 = p2 ∧
    (ops.veq a0 ops.vzero = false →
      (fixNormals ops ⟨p0, p1, p2, a0, a1, a2⟩).n0 = a0 ∧
      (fixNormals ops ⟨p0, p1, p2, a0, a1, a2⟩).n1 = a1 ∧
      (fixNormals ops ⟨p0, p1, p2, a0, a1, a2⟩).n2 = a2) ∧
    (ops.veq a0 ops.vzero = true →
      (fixNormals ops ⟨p0, p1, p2, a0, a1, a2⟩).n0 =
        ops.normalize (ops.crossProduct (ops.sub p1 p0) (ops.sub p2 p1)) ∧
      (fixNormals ops ⟨p0, p1, p2, a0, a1, a2⟩).n1 =
        ops.normalize (ops.crossProduct (ops.sub p1 p0) (ops.sub p2 p1)) ∧
      (fixNormals ops ⟨p0, p1, p2, a0, a1, a2⟩).n2 =
        ops.normalize (ops.crossProduct (ops.sub p1 p0) (ops.sub p2 p1))) := by
  unfold fixNormals generateNormal
  cases h : ops.veq a0 ops.vzero <;> simp [h]

theorem loadObjFile_eq_returned {α : Type} (ops : VecOps α) (LoadObj : String → ParseResult α)
    (mesh mesh' : List (Triangle3d α)) (file : String) :
    loadObjFile ops LoadObj mesh file = LoadResult.returned mesh' ↔
      (LoadObj file).err = "" ∧ convertShapes ops (LoadObj file).shapes mesh = .ok mesh' := by
  unfold loadObjFile
  by_cases he : (LoadObj file).err = ""
  · cases hc : convertShapes ops (LoadObj file).shapes mesh <;> simp [he, hc]
  · simp [he]

theorem dropTrailing_length {α : Type} (s : shape_t α) :
    (dropTrailing s).mesh.indices.length / 3 = s.mesh.indices.length / 3 := by
  simp only [dropTrailing, List.length_take]
  omega

theorem convertTriangle_dropTrailing {α : Type} (ops : VecOps α) (s : shape_t α)
    (tri : Triangle3d α) (i : Nat) (hi : i < s.mesh.indices.length / 3) :
    convertTriangle ops (dropTrailing s) tri i = convertTriangle ops s tri i := by
  have e0 : (dropTrailing s).mesh.indices[3 * i + 0]? = s.mesh.indices[3 * i + 0]? :=
    List.getElem?_take_of_lt (by omega)
  have e1 : (dropTrailing s).mesh.indices[3 * i + 1]? = s.mesh.indices[3 * i + 1]? :=
    List.getElem?_take_of_lt (by omega)
  have e2 : (dropTrailing s).mesh.indices[3 * i + 2]? = s.mesh.indices[3 * i + 2]? :=
    List.getElem?_take_of_lt (by omega)
  unfold convertTriangle readIndex
  rw [e0, e1, e2]
  rfl

theorem convertLoop_dropTrailing {α : Type} (ops : VecOps α) (s : shape_t α) (ks : List Nat) :
    ∀ (tri : Triangle3d α) (mesh : List (Triangle3d α)),
      (∀ k ∈ ks, k < s.mesh.indices.length / 3) →
      convertLoop ops (dropTrailing s) ks tri mesh = convertLoop ops s ks tri mesh := by
  induction ks with
  | nil => intro tri mesh _; rfl
  | cons i rest ih =>
    intro tri mesh hks
    unfold convertLoop
    rw [convertTriangle_dropTrailing ops s tri i (hks i (by simp))]
    cases convertTriangle ops s tri i with
    | error f => rfl
    | ok t => exact ih _ _ (fun k hk => hks k (by simp [hk]))

theorem convertShapes_dropTrailing {α : Type} (ops : VecOps α) (shapes : List (shape_t α)) :
    ∀ mesh : List (Triangle3d α),
      convertShapes ops (shapes.map dropTrailing) mesh = convertShapes ops shapes mesh := by
  induction shapes with
  | nil => intro mesh; rfl
  | cons s rest ih =>
    intro mesh
    simp only [List.map_cons, convertShapes]
    have : convertShape ops (dropTrailing s) mesh = convertShape ops s mesh := by
      unfold convertShape
      rw [dropTrailing_length]
      exact convertLoop_dropTrailing ops s _ _ _ (fun k hk => List.mem_range.1 hk)
    rw [this]
    cases convertShape ops s mesh with
    | error f => rfl
    | ok m => exact ih m

theorem flatten_length_of_forall₂ {α β : Type} (f : α → Nat) (R : α → List β → Prop)
    (hR : ∀ a l, R a l → l.length = f a) (xs : List α) (tss : List (List β))
    (h : List.Forall₂ R xs tss) : tss.flatten.length = (xs.map f).sum := by
  induction h with
  | nil => simp
  | cons hab _ ih =>
    simp only [List.flatten_cons, List.length_append, List.map_cons, List.sum_cons, ih,
      hR _ _ hab]

/-! ## Mesh loading: the statements -/

/-- C1.  Whenever `loadObjFile` returns, the triangles it appended are grouped
by shape, one per full index group `k`, and each is determined by that group
alone: its positions are the three looked-up positions; if the normal looked
up for the first index is not `==` the zero vector, its normals are exactly the
three looked-up normals (whatever the second and third are); if it is, all
three normals are `normalize(cross(p1 - p0, p2 - p1))` of the triangle's own
positions.  The body of the loop gives the same result whatever value the
previous iteration left in `tri`. -/
theorem loadObjFile_normal_policy {α : Type} (ops : VecOps α)
    (LoadObj : String → ParseResult α) (mesh mesh' : List (Triangle3d α)) (file : String)
    (h : loadObjFile ops LoadObj mesh file = LoadResult.returned mesh') :
    (∃ tss : List (List (Triangle3d α)), mesh' = mesh ++ tss.flatten ∧
      List.Forall₂ (fun s ts =>
        ts.length = s.mesh.indices.length / 3 ∧
        ∀ (k : Nat) (hk : k < ts.length), ∃ e0 e1 e2 a0 a1 a2,
          s.mesh.indices[3 * k + 0]? = some e0 ∧
          s.mesh.indices[3 * k + 1]? = some e1 ∧
          s.mesh.indices[3 * k + 2]? = some e2 ∧
          unmarshalVector (toInt32 e0) s.mesh.positions = some ts[k].p0 ∧
          unmarshalVector (toInt32 e1) s.mesh.positions = some ts[k].p1 ∧
          unmarshalVector (toInt32 e2) s.mesh.positions = some ts[k].p2 ∧
          unmarshalVector (toInt32 e0) s.mesh.normals = some a0 ∧
          unmarshalVector (toInt32 e1) s.mesh.normals = some a1 ∧
          unmarshalVector (toInt32 e2) s.mesh.normals = some a2 ∧
          (ops.veq a0 ops.vzero = false →
            ts[k].n0 = a0 ∧ ts[k].n1 = a1 ∧ ts[k].n2 = a2) ∧
          (ops.veq a0 ops.vzero = true →
            ts[k].n0 = ops.normalize
              (ops.crossProduct (ops.sub ts[k].p1 ts[k].p0) (ops.sub ts[k].p2 ts[k].p1)) ∧
            ts[k].n1 = ts[k].n0 ∧ ts[k].n2 = ts[k].n0))
        (LoadObj file).shapes tss) ∧
    (∀ (s : shape_t α) (tri tri' : Triangle3d α) (k : Nat),
      convertTriangle ops s tri k = convertTriangle ops s tri' k) := by
  refine ⟨?_, fun s tri tri' k => convertTriangle_indep ops s tri tri' k⟩
  obtain ⟨-, hc⟩ := (loadObjFile_eq_returned ops LoadObj mesh mesh' file).1 h
  obtain ⟨tss, rfl, htss⟩ := (convertShapes_eq_ok ops _ mesh mesh').1 hc
  refine ⟨tss, rfl, htss.imp ?_⟩
  intro s ts hts
  obtain ⟨hlen, hk⟩ := forall₂_range_index _ _ _ hts
  refine ⟨hlen, fun k hlt => ?_⟩
  obtain ⟨e0, e1, e2, p0, n0, p1, n1, p2, n2, h0, h1, h2, hp0, hn0, hp1, hn1, hp2, hn2, ht⟩ :=
    (convertTriangle_eq_ok ops s _ _ k).1 (hk k hlt)
  obtain ⟨q0, q1, q2, keep, gen⟩ := fixNormals_spec ops p0 p1 p2 n0 n1 n2
  rw [← ht] at q0 q1 q2 keep gen
  refine ⟨e0, e1, e2, n0, n1, n2, h0, h1, h2, ?_, ?_, ?_, hn0, hn1, hn2, keep, ?_⟩
  · rw [q0]; exact hp0
  · rw [q1]; exact hp1
  · rw [q2]; exact hp2
  · intro hz
    obtain ⟨g0, g1, g2⟩ := gen hz
    rw [q0, q1, q2]
    exact ⟨g0, g1.trans g0.symm, g2.trans g0.symm⟩

/-- Witness for C1: a mesh that mixes a triangle with generated normals and a
triangle with authored normals, the second of which is zero. -/
theorem loadObjFile_normal_policy_witness :
    loadObjFile intVecOps goodParser [] "obj/cow.obj" =
        LoadResult.returned
          [⟨⟨0, 0, 0⟩, ⟨1, 0, 0⟩, ⟨0, 1, 0⟩, ⟨0, 0, 1⟩, ⟨0, 0, 1⟩, ⟨0, 0, 1⟩⟩,
           ⟨⟨0, 0, 0⟩, ⟨2, 0, 0⟩, ⟨0, 2, 0⟩, ⟨0, 0, 1⟩, ⟨0, 0, 0⟩, ⟨0, 1, 0⟩⟩] ∧
      ∃ tss : List (List (Triangle3d Int)),
        [(⟨⟨0, 0, 0⟩, ⟨1, 0, 0⟩, ⟨0, 1, 0⟩, ⟨0, 0, 1⟩, ⟨0, 0, 1⟩, ⟨0, 0, 1⟩⟩ : Triangle3d Int),
           ⟨⟨0, 0, 0⟩, ⟨2, 0, 0⟩, ⟨0, 2, 0⟩, ⟨0, 0, 1⟩, ⟨0, 0, 0⟩, ⟨0, 1, 0⟩⟩] =
          [] ++ tss.flatten ∧ tss.length = 2 :=
  ⟨by decide,
   (loadObjFile_normal_policy intVecOps goodParser [] _ "obj/cow.obj" (by decide)).1.imp
     (fun _ hx => ⟨hx.1, hx.2.length_eq.symm⟩)⟩

theorem drain_noQuit {α T : Type} (es : List SDL_Event) (hes : NoQuit es) :
    ∀ (g : Globals α T) (q : Bool), drain g q es = (es.foldl handleKeyboard g, q) := by
  induction es with
  | nil => intro g q; rfl
  | cons e rest ih =>
    intro g q
    have he : e.type ≠ SDL_QUIT := hes e (by simp)
    have hrest : NoQuit rest := fun x hx => hes x (by simp [hx])
    simp only [drain, he, if_false, List.foldl_cons]
    exact ih hrest _ _

theorem drain_quit {α T : Type} (pre post : List SDL_Event) (e : SDL_Event) (hpre : NoQuit pre)
    (he : e.type = SDL_QUIT) :
    ∀ (g : Globals α T) (q : Bool),
      drain g q (pre ++ e :: post) = (pre.foldl handleKeyboard g, true) := by
  induction pre with
  | nil => intro g q; simp [drain, he]
  | cons x rest ih =>
    intro g q
    have hx : x.type ≠ SDL_QUIT := hpre x (by simp)
    have hrest : NoQuit rest := fun y hy => hpre y (by simp [hy])
    simp only [List.cons_append, drain, hx, if_false, List.foldl_cons]
    exact ih hrest _ _

theorem foldl_handleKeyboard_frame {α T : Type} (es : List SDL_Event) :
    ∀ g : Globals α T, (es.foldl handleKeyboard g).dragonMesh = g.dragonMesh ∧
      (es.foldl handleKeyboard g).camera = g.camera ∧
      (es.foldl handleKeyboard g).effects = g.effects := by
  induction es with
  | nil => intro g; exact ⟨rfl, rfl, rfl⟩
  | cons e rest ih =>
    intro g
    obtain ⟨h1, h2, h3⟩ := ih (handleKeyboard g e)
    obtain ⟨k1, k2, k3⟩ := handleKeyboard_frame g e
    rw [List.foldl_cons]
    exact ⟨h1.trans k1, h2.trans k2, h3.trans k3⟩

theorem renderFrame_spec {α M T : Type} (so : ScalarOps α) (mo : MatOps α M)
    (s : Globals α T × Locals M) (t : Nat) :
    (renderFrame so mo s t).2.rotation = mo.mul s.2.rotationStep s.2.rotation ∧
    (renderFrame so mo s t).2.transform =
      mo.mul (mo.mul (translationAt so mo t) (mo.mul s.2.rotationStep s.2.rotation)) s.2.scale ∧
    (renderFrame so mo s t).2.rotationStep = s.2.rotationStep ∧
    (renderFrame so mo s t).2.scale = s.2.scale ∧
    (renderFrame so mo s t).2.quit = s.2.quit ∧
    (renderFrame so mo s t).1.dragonMesh = s.1.dragonMesh ∧
    (renderFrame so mo s t).1.xKeyDir = s.1.xKeyDir ∧
    (renderFrame so mo s t).1.camera = s.1.camera ∧
    (renderFrame so mo s t).1.effects =
      s.1.effects ++ [Effect.clear 0x000AFF, Effect.clearDepthBuffer] ++
        s.1.dragonMesh.map (fun tri => Effect.renderTriangle
          (mo.transform (renderFrame so mo s t).2.transform tri)) ++ [Effect.blit] := by
  refine ⟨rfl, rfl, rfl, rfl, rfl, rfl, rfl, rfl, ?_⟩
  simp only [renderFrame, renderMesh_effects, List.append_assoc, List.singleton_append,
    List.cons_append, List.nil_append]

theorem frame_noQuit {α Q T M : Type} (so : ScalarOps α) (mo : MatOps α M) (co : CamOps α Q T)
    (s : Globals α T × Locals M) (inp : FrameInput) (hq : NoQuit inp.events) :
    (frame so mo co s inp).2.quit = s.2.quit ∧
    (frame so mo co s inp).2.rotation = mo.mul s.2.rotationStep s.2.rotation ∧
    (frame so mo co s inp).2.rotationStep = s.2.rotationStep ∧
    (frame so mo co s inp).2.scale = s.2.scale ∧
    (frame so mo co s inp).1.dragonMesh = s.1.dragonMesh := by
  unfold frame
  simp only [drain_noQuit inp.events hq]
  refine ⟨rfl, rfl, rfl, rfl, ?_⟩
  split_ifs
  · exact (foldl_handleKeyboard_frame inp.events _).1
  · exact (foldl_handleKeyboard_frame inp.events _).1

theorem mainLoop_of_quit {α Q T M : Type} (so : ScalarOps α) (mo : MatOps α M)
    (co : CamOps α Q T) (s : Globals α T × Locals M) (hs : s.2.quit = true)
    (fs : List FrameInput) : mainLoop so mo co s fs = s := by
  cases fs with
  | nil => rfl
  | cons f rest => simp [mainLoop, hs]

theorem mainLoop_append {α Q T M : Type} (so : ScalarOps α) (mo : MatOps α M)
    (co : CamOps α Q T) (fs gs : List FrameInput) :
    ∀ s : Globals α T × Locals M,
      mainLoop so mo co s (fs ++ gs) = mainLoop so mo co (mainLoop so mo co s fs) gs := by
  induction fs with
  | nil => intro s; rfl
  | cons f rest ih =>
    intro s
    by_cases hs : s.2.quit = true
    · rw [mainLoop_of_quit so mo co s hs, mainLoop_of_quit so mo co s hs,
        mainLoop_of_quit so mo co s hs]
    · simp only [List.cons_append, mainLoop, hs, if_false, Bool.false_eq_true]
      exact ih _

theorem mainLoop_noQuit {α Q T M : Type} (so : ScalarOps α) (mo : MatOps α M)
    (co : CamOps α Q T) (fs : List FrameInput) (hfs : ∀ f ∈ fs, NoQuit f.events) :
    ∀ s : Globals α T × Locals M, s.2.quit = false →
      (mainLoop so mo co s fs).2.quit = false ∧
      (mainLoop so mo co s fs).2.rotation =
        stepPower mo s.2.rotationStep fs.length s.2.rotation ∧
      (mainLoop so mo co s fs).2.rotationStep = s.2.rotationStep ∧
      (mainLoop so mo co s fs).2.scale = s.2.scale ∧
      (mainLoop so mo co s fs).1.dragonMesh = s.1.dragonMesh := by
  induction fs using List.reverseRecOn with
  | nil => intro s hs; exact ⟨hs, rfl, rfl, rfl, rfl⟩
  | append_singleton fs f ih =>
    intro s hs
    obtain ⟨i1, i2, i3, i4, i5⟩ := ih (fun g hg => hfs g (by simp [hg])) s hs
    obtain ⟨j1, j2, j3, j4, j5⟩ :=
      frame_noQuit so mo co (mainLoop so mo co s fs) f (hfs f (by simp))
    rw [mainLoop_append]
    simp only [mainLoop, i1, if_false, Bool.false_eq_true, List.length_append,
      List.length_singleton, stepPower]
    exact ⟨j1.trans i1, by rw [j2, i2, i3], j3.trans i3, j4.trans i4, j5.trans i5⟩

theorem stepPower_monoid {α M : Type} [Monoid M] (mo : MatOps α M)
    (hmul : ∀ a b, mo.mul a b = a * b) (step r : M) (n : Nat) :
    stepPower mo step n r = step ^ n * r := by
  induction n with
  | zero => simp [stepPower]
  | succ n ih => rw [stepPower, ih, hmul, pow_succ', mul_assoc]

theorem take_pred_append {β : Type} (l : List β) (n : Nat) (x : β) (h1 : 1 ≤ n)
    (hx : l[n - 1]? = some x) : l.take n = l.take (n - 1) ++ [x] := by
  obtain ⟨m, rfl⟩ : ∃ m, n = m + 1 := ⟨n - 1, by omega⟩
  simp only [Nat.add_sub_cancel] at hx ⊢
  rw [List.take_succ, hx]
  rfl

/-- C8.  In the `n`-th pass of the frame loop (`n >= 1`, no quit signal polled
in the passes before it) the matrix handed to `renderMesh` is
`createTranslation(sin(t_n / 1000.0) * 100.0, 0.0, -100.0) * rotation_n *
createScale(10, 10, 10)`, where `t_n` is the clock reading of that pass and
`rotation_n` is the default constructed matrix multiplied from the left by
`rotationStep = createRotationAroundAxis(0.0, 180.0 / 25, 0.0)` once per pass,
`n` times in all; the triangles submitted in that pass are the mesh triangles
transformed by this matrix. -/
theorem main_transform_nth {α Q T M : Type} (so : ScalarOps α) (mo : MatOps α M)
    (co : CamOps α Q T) (mesh : List (Triangle3d α)) (frames : List FrameInput) (n : Nat)
    (f : FrameInput) (h1 : 1 ≤ n) (hf : frames[n - 1]? = some f)
    (hq : ∀ g ∈ frames.take (n - 1), NoQuit g.events) :
    (renderFrame so mo (mainLoop so mo co (setup so mo co mesh) (frames.take (n - 1)))
        f.ticks).2.transform =
      mo.mul
        (mo.mul
          (mo.createTranslation
            (so.mul (so.sin (so.div (so.ofUInt32 f.ticks) (so.lit 1000))) (so.lit 100))
            (so.lit 0) (so.neg (so.lit 100)))
          (stepPower mo
            (mo.createRotationAroundAxis (so.lit 0) (so.div (so.lit 180) (so.lit 25)) (so.lit 0))
            n mo.mdefault))
        (mo.createScale (so.lit 10) (so.lit 10) (so.lit 10)) ∧
    (renderFrame so mo (mainLoop so mo co (setup so mo co mesh) (frames.take (n - 1)))
        f.ticks).2.rotation =
      stepPower mo
        (mo.createRotationAroundAxis (so.lit 0) (so.div (so.lit 180) (so.lit 25)) (so.lit 0))
        n mo.mdefault ∧
    (renderFrame so mo (mainLoop so mo co (setup so mo co mesh) (frames.take (n - 1)))
        f.ticks).1.effects =
      (mainLoop so mo co (setup so mo co mesh) (frames.take (n - 1))).1.effects ++
        [Effect.clear 0x000AFF, Effect.clearDepthBuffer] ++
        mesh.map (fun tri => Effect.renderTriangle (mo.transform
          (renderFrame so mo (mainLoop so mo co (setup so mo co mesh) (frames.take (n - 1)))
            f.ticks).2.transform tri)) ++ [Effect.blit] ∧
    (mainLoop so mo co (setup so mo co mesh) (frames.take n)).2.transform =
      (renderFrame so mo (mainLoop so mo co (setup so mo co mesh) (frames.take (n - 1)))
        f.ticks).2.transform := by
  obtain ⟨i1, i2, i3, i4, i5⟩ :=
    mainLoop_noQuit so mo co (frames.take (n - 1)) hq (setup so mo co mesh) rfl
  obtain ⟨r1, r2, -, -, -, -, -, -, r9⟩ :=
    renderFrame_spec so mo (mainLoop so mo co (setup so mo co mesh) (frames.take (n - 1))) f.ticks
  have hlen : (frames.take (n - 1)).length = n - 1 := by
    have : n - 1 < frames.length := (List.getElem?_eq_some.1 hf).1
    rw [List.length_take]
    omega
  have hrot : mo.mul
      (mainLoop so mo co (setup so mo co mesh) (frames.take (n - 1))).2.rotationStep
      (mainLoop so mo co (setup so mo co mesh) (frames.take (n - 1))).2.rotation =
      stepPower mo
        (mo.createRotationAroundAxis (so.lit 0) (so.div (so.lit 180) (so.lit 25)) (so.lit 0))
        n mo.mdefault := by
    rw [i2, i3, hlen]
    cases n with
    | zero => omega
    | succ m => rfl
  refine ⟨?_, ?_, ?_, ?_⟩
  · rw [r2, hrot, i4]
    rfl
  · rw [r1, hrot]
  · rw [r9, i5]
    rfl
  · rw [take_pred_append frames n f h1 hf, mainLoop_append]
    simp only [mainLoop, i1, if_false, Bool.false_eq_true]
    rfl

/-- Witness for C8: the third pass, the first two polling only key events. -/
theorem main_transform_nth_witness :
    ((1 ≤ 3 ∧ [(⟨0, []⟩ : FrameInput), ⟨16, [keyDown SDLK_LEFT]⟩, ⟨2000, [quitEvent]⟩][3 - 1]? =
        some ⟨2000, [quitEvent]⟩) ∧
      ∀ g ∈ [(⟨0, []⟩ : FrameInput), ⟨16, [keyDown SDLK_LEFT]⟩, ⟨2000, [quitEvent]⟩].take (3 - 1),
        NoQuit g.events) ∧
    (mainLoop intScalarOps freeMatOps logCamOps (setup intScalarOps freeMatOps logCamOps [])
        ([(⟨0, []⟩ : FrameInput), ⟨16, [keyDown SDLK_LEFT]⟩, ⟨2000, [quitEvent]⟩].take 3)).2.transform =
      MatExpr.mul (MatExpr.mul (MatExpr.trans 200 0 (-100))
        (MatExpr.mul (MatExpr.rot 0 7 0) (MatExpr.mul (MatExpr.rot 0 7 0)
          (MatExpr.mul (MatExpr.rot 0 7 0) MatExpr.dflt)))) (MatExpr.scale 10 10 10) :=
  ⟨⟨⟨by decide, by decide⟩, by decide⟩,
   ((main_transform_nth intScalarOps freeMatOps logCamOps []
      [⟨0, []⟩, ⟨16, [keyDown SDLK_LEFT]⟩, ⟨2000, [quitEvent]⟩] 3 ⟨2000, [quitEvent]⟩
      (by decide) (by decide) (by decide)).2.2.2).trans
    (main_transform_nth intScalarOps freeMatOps logCamOps []
      [⟨0, []⟩, ⟨16, [keyDown SDLK_LEFT]⟩, ⟨2000, [quitEvent]⟩] 3 ⟨2000, [quitEvent]⟩
      (by decide) (by decide) (by decide)).1⟩

/-- C6, as stated, fails: with a key-down(LEFT) pending behind the quit signal
in the same drain, the drain stops at the quit signal and the key event is not
handled.  `xKeyDir` stays (0,0) where handling the pending event would give
(-1,0), and `main` ends with the camera never rotated. -/
theorem drain_completes_counterexample :
    (drain sampleGlobals false [quitEvent, keyDown SDLK_LEFT]).1.xKeyDir = ⟨0, 0⟩ ∧
      ([quitEvent, keyDown SDLK_LEFT].foldl handleKeyboard sampleGlobals).xKeyDir = ⟨-1, 0⟩ ∧
      (drain sampleGlobals false [quitEvent, keyDown SDLK_LEFT]).1.xKeyDir ≠
        ([quitEvent, keyDown SDLK_LEFT].foldl handleKeyboard sampleGlobals).xKeyDir ∧
      main intScalarOps intVecOps freeMatOps logCamOps goodParser
          [⟨0, [quitEvent, keyDown SDLK_LEFT]⟩] =
        main intScalarOps intVecOps freeMatOps logCamOps goodParser [⟨0, [quitEvent]⟩] := by
  refine ⟨by decide, by decide, by decide, rfl⟩

/-- C6, amended.  A quit signal polled during the drain ends the drain at once:
the events polled before it in that drain have been handled, the events still
pending behind it are not.  From the moment the quit signal is polled the loop
only runs `transformCamera`; no clear, depth clear, triangle submission,
present or delay is made any more (the calls made on the window, the renderer
and SDL are exactly those made up to the present of that pass), the loop ends,
later frame inputs are never consumed, and `main` returns 0. -/
theorem main_quit {α Q T M : Type} (so : ScalarOps α) (vo : VecOps α) (mo : MatOps α M)
    (co : CamOps α Q T) (mesh : List (Triangle3d α)) (fs rest : List FrameInput)
    (f : FrameInput) (pre post : List SDL_Event) (q : SDL_Event)
    (hfs : ∀ g ∈ fs, NoQuit g.events) (hpre : NoQuit pre) (hq : q.type = SDL_QUIT)
    (hf : f.events = pre ++ q :: post) :
    (∀ (g : Globals α T) (b : Bool), drain g b f.events = (pre.foldl handleKeyboard g, true)) ∧
    (mainLoop so mo co (setup so mo co mesh) (fs ++ f :: rest)).2.quit = true ∧
    (mainLoop so mo co (setup so mo co mesh) (fs ++ f :: rest)).1 =
      transformCamera so co (pre.foldl handleKeyboard
        (renderFrame so mo (mainLoop so mo co (setup so mo co mesh) fs) f.ticks).1) ∧
    (mainLoop so mo co (setup so mo co mesh) (fs ++ f :: rest)).1.effects =
      (renderFrame so mo (mainLoop so mo co (setup so mo co mesh) fs) f.ticks).1.effects ∧
    (renderFrame so mo (mainLoop so mo co (setup so mo co mesh) fs) f.ticks).1.effects =
      (mainLoop so mo co (setup so mo co mesh) fs).1.effects ++
        [Effect.clear 0x000AFF, Effect.clearDepthBuffer] ++
        mesh.map (fun tri => Effect.renderTriangle (mo.transform
          (renderFrame so mo (mainLoop so mo co (setup so mo co mesh) fs)
            f.ticks).2.transform tri)) ++ [Effect.blit] ∧
    (∀ LoadObj : String → ParseResult α,
      loadObjFile vo LoadObj [] "obj/cow.obj" = LoadResult.returned mesh →
      main so vo mo co LoadObj (fs ++ f :: rest) =
        MainResult.ended 0 (transformCamera so co (pre.foldl handleKeyboard
          (renderFrame so mo (mainLoop so mo co (setup so mo co mesh) fs) f.ticks).1))) := by
  have hd : ∀ (g : Globals α T) (b : Bool),
      drain g b f.events = (pre.foldl handleKeyboard g, true) := by
    intro g b
    rw [hf]
    exact drain_quit pre post q hpre hq g b
  obtain ⟨i1, -, -, -, i5⟩ := mainLoop_noQuit so mo co fs hfs (setup so mo co mesh) rfl
  have hframe : frame so mo co (mainLoop so mo co (setup so mo co mesh) fs) f =
      (transformCamera so co (pre.foldl handleKeyboard
        (renderFrame so mo (mainLoop so mo co (setup so mo co mesh) fs) f.ticks).1),
       { (renderFrame so mo (mainLoop so mo co (setup so mo co mesh) fs) f.ticks).2 with
          quit := true }) := by
    unfold frame
    simp only [hd]
    rfl
  have hloop : mainLoop so mo co (setup so mo co mesh) (fs ++ f :: rest) =
      frame so mo co (mainLoop so mo co (setup so mo co mesh) fs) f := by
    rw [mainLoop_append]
    simp only [mainLoop, i1, if_false, Bool.false_eq_true]
    exact mainLoop_of_quit so mo co _ (by rw [hframe]) rest
  obtain ⟨-, -, -, -, -, -, -, -, r9⟩ :=
    renderFrame_spec so mo (mainLoop so mo co (setup so mo co mesh) fs) f.ticks
  refine ⟨hd, ?_, ?_, ?_, ?_, ?_⟩
  · rw [hloop, hframe]
  · rw [hloop, hframe]
  · rw [hloop, hframe]
    exact (foldl_handleKeyboard_frame pre _).2.2
  · rw [r9, i5]
    rfl
  · intro LoadObj hl
    have hl' : loadObjFile vo LoadObj (globals0 co).dragonMesh "obj/cow.obj" =
        LoadResult.returned mesh := hl
    simp only [main, hl', hloop, hframe, if_true]

/-- Witness for C6 (amended): one ordinary pass, then a pass whose drain holds
a key event, the quit signal and a further key event. -/
theorem main_quit_witness :
    ((∀ g ∈ [(⟨0, [keyDown SDLK_UP]⟩ : FrameInput)], NoQuit g.events) ∧
        NoQuit [keyDown SDLK_LEFT] ∧ quitEvent.type = SDL_QUIT ∧
        (⟨16, [keyDown SDLK_LEFT, quitEvent, keyDown SDLK_DOWN]⟩ : FrameInput).events =
          [keyDown SDLK_LEFT] ++ quitEvent :: [keyDown SDLK_DOWN]) ∧
      (mainLoop intScalarOps freeMatOps logCamOps (setup intScalarOps freeMatOps logCamOps [])
        ([⟨0, [keyDown SDLK_UP]⟩] ++
          (⟨16, [keyDown SDLK_LEFT, quitEvent, keyDown SDLK_DOWN]⟩ : FrameInput) ::
            [⟨32, []⟩])).2.quit = true :=
  ⟨⟨by decide, by decide, by decide, rfl⟩,
   (main_quit intScalarOps intVecOps freeMatOps logCamOps [] [⟨0, [keyDown SDLK_UP]⟩]
      [⟨32, []⟩] ⟨16, [keyDown SDLK_LEFT, quitEvent, keyDown SDLK_DOWN]⟩ [keyDown SDLK_LEFT]
      [keyDown SDLK_DOWN] quitEvent (by decide) (by decide) (by decide) rfl).2.1⟩

end Jaster
